import Mathlib

/-!
Shallow embedding of the flag-parsing core of the agent-browser CLI
(src/cli/src/validation.rs and src/cli/src/flags.rs), together with
theorems checking the natural-language specification against it.

Strings are modelled as Lean `String`s; the Rust code iterates over the
UTF-8 bytes of the name, so we model the byte sequence of a string
explicitly via a UTF-8 encoder over its code points.
-/

namespace AgentBrowser

/-- UTF-8 encoding of a single code point, as a list of byte values.
Mirrors the standard UTF-8 scheme used by Rust's `str::as_bytes`. -/
def utf8Encode (c : Char) : List Nat :=
  let n := c.toNat
  if n < 128 then [n]
  else if n < 2048 then [192 + n / 64, 128 + n % 64]
  else if n < 65536 then [224 + n / 4096, 128 + (n / 64) % 64, 128 + n % 64]
  else [240 + n / 262144, 128 + (n / 4096) % 64, 128 + (n / 64) % 64, 128 + n % 64]

/-- The byte sequence of a string (Rust `name.as_bytes()`). -/
def strBytes (s : String) : List Nat :=
  s.data.flatMap utf8Encode

/-- Rust `u8::is_ascii_alphanumeric`. -/
def is_ascii_alphanumeric (b : Nat) : Bool :=
  (48 ≤ b && b ≤ 57) || (65 ≤ b && b ≤ 90) || (97 ≤ b && b ≤ 122)

/-- The per-byte validity test in `is_valid_session_name`:
`b.is_ascii_alphanumeric() || b == b'-' || b == b'_'`. -/
def is_valid_byte (b : Nat) : Bool :=
  is_ascii_alphanumeric b || b == 45 || b == 95

/-- `is_valid_session_name` from src/cli/src/validation.rs: rejects the
empty string, then checks each byte of the UTF-8 representation. -/
def is_valid_session_name (name : String) : Bool :=
  if (strBytes name).isEmpty then false
  else (strBytes name).all is_valid_byte

/-- `session_name_error` from src/cli/src/validation.rs. -/
def session_name_error (name : String) : String :=
  "Invalid session name '" ++ name ++
    "'. Only alphanumeric characters, hyphens, and underscores are allowed."

/-- The inline error format used by `parse_flags` for an invalid
`AGENT_BROWSER_SESSION_NAME` environment value. -/
def env_session_name_error (name : String) : String :=
  "Invalid AGENT_BROWSER_SESSION_NAME '" ++ name ++
    "'. Only alphanumeric characters, hyphens, and underscores are allowed."

/-- The inline error format the `--session-name` arm of `parse_flags`
pushes for an invalid flag value (written out in flags.rs as its own
`format!` call, separate from `session_name_error`). -/
def flags_session_name_error (name : String) : String :=
  "Invalid session name '" ++ name ++
    "'. Only alphanumeric characters, hyphens, and underscores are allowed."

/-- The `Flags` struct from src/cli/src/flags.rs. -/
structure Flags where
  json : Bool
  full : Bool
  headed : Bool
  debug : Bool
  session : String
  headers : Option String
  executable_path : Option String
  cdp : Option String
  session_name : Option String
deriving DecidableEq, Repr

/-- The `ParsedFlags` struct from src/cli/src/flags.rs. -/
structure ParsedFlags where
  flags : Flags
  errors : List String
deriving DecidableEq, Repr

/-- The process environment, restricted to the three variables the
parser reads (`env::var(..).ok()` yields an `Option`). -/
structure Env where
  agent_browser_session : Option String
  agent_browser_executable_path : Option String
  agent_browser_session_name : Option String
deriving DecidableEq, Repr

/-- Environment-validation step of `parse_flags`: the seeded
`session_name` (valid env value or `None`). -/
def validated_env_session_name (env : Env) : Option String :=
  match env.agent_browser_session_name with
  | some name => if is_valid_session_name name then some name else none
  | none => none

/-- Environment-validation step of `parse_flags`: the errors pushed
before the argument scan (one if the env value is present and invalid). -/
def env_errors (env : Env) : List String :=
  match env.agent_browser_session_name with
  | some name => if is_valid_session_name name then [] else [env_session_name_error name]
  | none => []

/-- The initial `Flags` value built by `parse_flags` from the
environment, before the argument scan. -/
def initial_flags (env : Env) : Flags where
  json := false
  full := false
  headed := false
  debug := false
  session := env.agent_browser_session.getD "default"
  headers := none
  executable_path := env.agent_browser_executable_path
  cdp := none
  session_name := validated_env_session_name env

/-- The `while i < args.len()` scan of `parse_flags`, as structural
recursion over the remaining arguments.  A value-taking flag looks at
the next element (`args.get(i + 1)`); when present it is consumed
(the recursion continues past it), when absent nothing happens and the
loop ends. -/
def parse_loop : List String → Flags → List String → Flags × List String
  | [], flags, errors => (flags, errors)
  | a :: rest, flags, errors =>
    if a = "--json" then parse_loop rest { flags with json := true } errors
    else if a = "--full" ∨ a = "-f" then parse_loop rest { flags with full := true } errors
    else if a = "--headed" then parse_loop rest { flags with headed := true } errors
    else if a = "--debug" then parse_loop rest { flags with debug := true } errors
    else if a = "--session" then
      match rest with
      | [] => (flags, errors)
      | v :: rest2 => parse_loop rest2 { flags with session := v } errors
    else if a = "--headers" then
      match rest with
      | [] => (flags, errors)
      | v :: rest2 => parse_loop rest2 { flags with headers := some v } errors
    else if a = "--executable-path" then
      match rest with
      | [] => (flags, errors)
      | v :: rest2 => parse_loop rest2 { flags with executable_path := some v } errors
    else if a = "--cdp" then
      match rest with
      | [] => (flags, errors)
      | v :: rest2 => parse_loop rest2 { flags with cdp := some v } errors
    else if a = "--session-name" then
      match rest with
      | [] => (flags, errors)
      | v :: rest2 =>
        if is_valid_session_name v then
          parse_loop rest2 { flags with session_name := some v } errors
        else
          parse_loop rest2 flags (errors ++ [flags_session_name_error v])
    else parse_loop rest flags errors

/-- `parse_flags` from src/cli/src/flags.rs: seed from the environment,
then scan the argument list. -/
def parse_flags (env : Env) (args : List String) : ParsedFlags :=
  let r := parse_loop args (initial_flags env) (env_errors env)
  { flags := r.1, errors := r.2 }

/-- `GLOBAL_FLAGS` from `clean_args`. -/
def GLOBAL_FLAGS : List String := ["--json", "--full", "--headed", "--debug"]

/-- `GLOBAL_FLAGS_WITH_VALUE` from `clean_args`. -/
def GLOBAL_FLAGS_WITH_VALUE : List String :=
  ["--session", "--headers", "--executable-path", "--cdp", "--session-name"]

/-- The `for arg in args` loop of `clean_args`, with its `skip_next`
state passed explicitly. -/
def clean_args_loop : List String → Bool → List String
  | [], _ => []
  | a :: rest, skip_next =>
    if skip_next then clean_args_loop rest false
    else if GLOBAL_FLAGS_WITH_VALUE.contains a then clean_args_loop rest true
    else if GLOBAL_FLAGS.contains a || a == "-f" then clean_args_loop rest false
    else a :: clean_args_loop rest false

/-- `clean_args` from src/cli/src/flags.rs. -/
def clean_args (args : List String) : List String :=
  clean_args_loop args false

/-! Specification-side definitions, used to state the claims the spec
makes about the code and compare them with the embedded functions. -/

/-- The specification's character class for session names: an ASCII
letter, an ASCII digit, a hyphen, or an underscore. -/
def spec_valid_char (c : Char) : Bool :=
  ('A' ≤ c && c ≤ 'Z') || ('a' ≤ c && c ≤ 'z') || ('0' ≤ c && c ≤ '9') ||
    c == '-' || c == '_'

/-- The cleaning contract as the specification words it: remove each
standalone global flag, remove each value-taking global flag together
with its immediately following token (when it has one), keep every
other token in order. -/
def spec_clean : List String → List String
  | [] => []
  | a :: rest =>
    if GLOBAL_FLAGS_WITH_VALUE.contains a then
      match rest with
      | [] => []
      | _ :: rest2 => spec_clean rest2
    else if GLOBAL_FLAGS.contains a || a == "-f" then spec_clean rest
    else a :: spec_clean rest

/-- All recognized global flag names (standalone and value-taking). -/
def RECOGNIZED_FLAGS : List String :=
  ["--json", "--full", "-f", "--headed", "--debug",
   "--session", "--headers", "--executable-path", "--cdp", "--session-name"]

/-- The claim-side description of repeated value-taking flags, for one
flag `g`: the value token of the last occurrence of `g` that the scan
reaches with a following token.  Later occurrences override earlier
ones, and a token already consumed as another flag's value is not an
occurrence. -/
def last_flag_value (g : String) : List String → Option String
  | [] => none
  | a :: rest =>
    if a = "--json" ∨ a = "--full" ∨ a = "-f" ∨ a = "--headed" ∨ a = "--debug" then
      last_flag_value g rest
    else if a = "--session" ∨ a = "--headers" ∨ a = "--executable-path" ∨
        a = "--cdp" ∨ a = "--session-name" then
      match rest with
      | [] => none
      | v :: rest2 => (last_flag_value g rest2).or (if a = g then some v else none)
    else last_flag_value g rest


/-- Like `last_flag_value` for `--session-name`, except that an
occurrence counts only when its value passes validation, since the code
assigns only validated values. -/
def last_valid_session_name : List String → Option String
  | [] => none
  | a :: rest =>
    if a = "--json" ∨ a = "--full" ∨ a = "-f" ∨ a = "--headed" ∨ a = "--debug" then
      last_valid_session_name rest
    else if a = "--session" ∨ a = "--headers" ∨ a = "--executable-path" ∨
        a = "--cdp" ∨ a = "--session-name" then
      match rest with
      | [] => none
      | v :: rest2 =>
        (last_valid_session_name rest2).or
          (if a = "--session-name" then
            (if is_valid_session_name v then some v else none)
          else none)
    else last_valid_session_name rest

/-! Lemmas about the validator. -/

lemma char_eq_iff_toNat (c d : Char) : c = d ↔ c.toNat = d.toNat := by
  rw [Char.ext_iff]
  constructor
  · intro h; show c.val.toNat = d.val.toNat; rw [h]
  · intro h; exact UInt32.ext h

lemma spec_valid_char_iff (c : Char) :
    spec_valid_char c = true ↔ is_valid_byte c.toNat = true := by
  unfold spec_valid_char is_valid_byte is_ascii_alphanumeric
  simp only [Bool.or_eq_true, Bool.and_eq_true, decide_eq_true_eq, beq_iff_eq]
  rw [char_eq_iff_toNat c (Char.ofNat 45), char_eq_iff_toNat c (Char.ofNat 95)]
  show ((((65 ≤ c.toNat ∧ c.toNat ≤ 90) ∨ (97 ≤ c.toNat ∧ c.toNat ≤ 122)) ∨
      (48 ≤ c.toNat ∧ c.toNat ≤ 57)) ∨ c.toNat = 45) ∨ c.toNat = 95 ↔
    ((((48 ≤ c.toNat ∧ c.toNat ≤ 57) ∨ (65 ≤ c.toNat ∧ c.toNat ≤ 90)) ∨
      (97 ≤ c.toNat ∧ c.toNat ≤ 122)) ∨ c.toNat = 45) ∨ c.toNat = 95
  omega

lemma is_valid_byte_big {b : Nat} (h : 128 ≤ b) : is_valid_byte b = false := by
  unfold is_valid_byte is_ascii_alphanumeric
  simp only [Bool.or_eq_false_iff, Bool.and_eq_false_iff, decide_eq_false_iff_not,
    beq_eq_false_iff_ne, ne_eq]
  omega

lemma utf8_all_valid (c : Char) :
    (utf8Encode c).all is_valid_byte = spec_valid_char c := by
  unfold utf8Encode
  by_cases h1 : c.toNat < 128
  · simp only [h1, if_true, List.all_cons, List.all_nil, Bool.and_true]
    rw [Bool.eq_iff_iff, spec_valid_char_iff]
  · rw [Bool.eq_iff_iff]
    have hb : spec_valid_char c = false := by
      rw [← Bool.not_eq_true, spec_valid_char_iff, is_valid_byte_big (by omega),
        Bool.false_eq_true]
      exact not_false
    rw [hb]
    simp only [h1, if_false, Bool.false_eq_true, iff_false]
    by_cases h2 : c.toNat < 2048
    · simp only [h2, if_true, List.all_cons, Bool.and_eq_true]
      intro h
      have h0 := h.1
      rw [is_valid_byte_big (by omega)] at h0
      exact Bool.false_ne_true h0
    · by_cases h3 : c.toNat < 65536
      · simp only [h2, h3, if_false, if_true, List.all_cons, Bool.and_eq_true]
        intro h
        have h0 := h.1
        rw [is_valid_byte_big (by omega)] at h0
        exact Bool.false_ne_true h0
      · simp only [h2, h3, if_false, List.all_cons, Bool.and_eq_true]
        intro h
        have h0 := h.1
        rw [is_valid_byte_big (by omega)] at h0
        exact Bool.false_ne_true h0

lemma utf8Encode_ne_nil (c : Char) : utf8Encode c ≠ [] := by
  unfold utf8Encode
  by_cases h1 : c.toNat < 128 <;> by_cases h2 : c.toNat < 2048 <;>
    by_cases h3 : c.toNat < 65536 <;> simp [h1, h2, h3]

lemma strBytes_nil_iff (s : String) : strBytes s = [] ↔ s.data = [] := by
  unfold strBytes
  rw [List.flatMap_eq_nil_iff]
  constructor
  · intro h
    cases hd : s.data with
    | nil => rfl
    | cons c t =>
      exact absurd (h c (by rw [hd]; exact List.mem_cons_self c t)) (utf8Encode_ne_nil c)
  · intro h; rw [h]; intro x hx; cases hx

lemma is_valid_session_name_iff (s : String) :
    is_valid_session_name s = true ↔
      s.data ≠ [] ∧ ∀ c ∈ s.data, spec_valid_char c = true := by
  have hiff : (strBytes s).isEmpty = true ↔ s.data = [] := by
    rw [List.isEmpty_iff, strBytes_nil_iff]
  unfold is_valid_session_name
  by_cases he : s.data = []
  · rw [if_pos (hiff.mpr he)]
    simp [he]
  · rw [if_neg (fun h => he (hiff.mp h))]
    constructor
    · intro h
      refine ⟨he, ?_⟩
      intro c hc
      rw [List.all_eq_true] at h
      have hall : (utf8Encode c).all is_valid_byte = true := by
        rw [List.all_eq_true]
        intro b hb
        exact h b (List.mem_flatMap.mpr ⟨c, hc, hb⟩)
      rwa [utf8_all_valid] at hall
    · rintro ⟨-, hall⟩
      rw [List.all_eq_true]
      intro b hb
      rcases List.mem_flatMap.mp hb with ⟨c, hc, hbc⟩
      have hc2 := hall c hc
      rw [← utf8_all_valid, List.all_eq_true] at hc2
      exact hc2 b hbc

/-- C1: `is_valid_session_name name` is true iff `name` is non-empty and
every character is an ASCII letter, an ASCII digit, a hyphen, or an
underscore; in particular it is false for the empty string and false for
any string containing one of the listed forbidden characters or a
non-ASCII code point. -/
theorem C1_is_valid_session_name_charclass (s : String) :
    (is_valid_session_name s = true ↔
      s.data ≠ [] ∧ ∀ c ∈ s.data, spec_valid_char c = true)
    ∧ is_valid_session_name "" = false
    ∧ (∀ c ∈ s.data, (c ∈ ['.', '/', '\\', ' ', ':', '*', '@'] ∨ 128 ≤ c.toNat) →
        is_valid_session_name s = false) := by
  refine ⟨is_valid_session_name_iff s, by decide, ?_⟩
  intro c hc hbad
  have hcf : spec_valid_char c = false := by
    rcases hbad with hmem | hbig
    · fin_cases hmem <;> decide
    · rw [← Bool.not_eq_true, spec_valid_char_iff, is_valid_byte_big hbig,
        Bool.false_eq_true]
      exact not_false
  cases hv : is_valid_session_name s with
  | false => rfl
  | true =>
    have := ((is_valid_session_name_iff s).mp hv).2 c hc
    rw [hcf] at this
    exact absurd this (Bool.false_ne_true)

/-- Witness for C1 at name "a.b" with the forbidden character the dot. -/
theorem C1_witness : is_valid_session_name "a.b" = false :=
  (C1_is_valid_session_name_charclass "a.b").2.2 '.' (by decide) (Or.inl (by decide))

/-! Lemmas about `clean_args`. -/

lemma cal_nil (b : Bool) : clean_args_loop [] b = [] := rfl

lemma cal_skip (a : String) (rest : List String) :
    clean_args_loop (a :: rest) true = clean_args_loop rest false := by
  simp only [clean_args_loop, if_true]

lemma cal_step (a : String) (rest : List String) :
    clean_args_loop (a :: rest) false =
      if GLOBAL_FLAGS_WITH_VALUE.contains a then clean_args_loop rest true
      else if GLOBAL_FLAGS.contains a || a == "-f" then clean_args_loop rest false
      else a :: clean_args_loop rest false := by
  simp only [clean_args_loop, Bool.false_eq_true, if_false]

lemma clean_eq_spec : ∀ args, clean_args_loop args false = spec_clean args := by
  intro args
  induction args using spec_clean.induct with
  | case1 => rfl
  | case2 a hv =>
    rw [cal_step, if_pos hv, spec_clean.eq_def]
    simp only [hv, if_true]
    rfl
  | case3 a hv v rest2 ih =>
    rw [cal_step, if_pos hv, cal_skip, spec_clean.eq_def]
    simp only [hv, if_true]
    exact ih
  | case4 a rest hv hb ih =>
    rw [cal_step, if_neg hv, if_pos hb, spec_clean.eq_def]
    simp only [hv, hb, Bool.false_eq_true, if_true, if_false]
    exact ih
  | case5 a rest hv hb ih =>
    rw [cal_step, if_neg hv, if_neg hb, spec_clean.eq_def]
    simp only [hv, hb, Bool.false_eq_true, if_false]
    rw [ih]

lemma cal_sublist : ∀ (args : List String) (b : Bool),
    List.Sublist (clean_args_loop args b) args := by
  intro args
  induction args with
  | nil => intro b; rw [cal_nil]
  | cons a rest ih =>
    intro b
    cases b with
    | true => rw [cal_skip]; exact (ih false).cons a
    | false =>
      rw [cal_step]
      by_cases hv : GLOBAL_FLAGS_WITH_VALUE.contains a = true
      · rw [if_pos hv]; exact (ih true).cons a
      · rw [if_neg hv]
        by_cases hb : (GLOBAL_FLAGS.contains a || a == "-f") = true
        · rw [if_pos hb]; exact (ih false).cons a
        · rw [if_neg hb]; exact (ih false).cons₂ a

lemma cal_mem : ∀ (args : List String) (b : Bool) (x : String),
    x ∈ clean_args_loop args b →
    GLOBAL_FLAGS_WITH_VALUE.contains x = false ∧
      GLOBAL_FLAGS.contains x = false ∧ x ≠ "-f" := by
  intro args
  induction args with
  | nil =>
    intro b x hx
    rw [cal_nil] at hx
    cases hx
  | cons a rest ih =>
    intro b x hx
    cases b with
    | true => rw [cal_skip] at hx; exact ih false x hx
    | false =>
      rw [cal_step] at hx
      by_cases hv : GLOBAL_FLAGS_WITH_VALUE.contains a = true
      · rw [if_pos hv] at hx; exact ih true x hx
      · rw [if_neg hv] at hx
        by_cases hb : (GLOBAL_FLAGS.contains a || a == "-f") = true
        · rw [if_pos hb] at hx; exact ih false x hx
        · rw [if_neg hb] at hx
          rcases List.mem_cons.mp hx with rfl | hx2
          · simp only [Bool.not_eq_true, Bool.or_eq_false_iff, beq_eq_false_iff_ne,
              ne_eq] at hv hb
            exact ⟨hv, hb.1, hb.2⟩
          · exact ih false x hx2

lemma cal_fixed : ∀ l : List String,
    (∀ x ∈ l, GLOBAL_FLAGS_WITH_VALUE.contains x = false ∧
      GLOBAL_FLAGS.contains x = false ∧ x ≠ "-f") →
    clean_args_loop l false = l := by
  intro l
  induction l with
  | nil => intro h; rfl
  | cons a rest ih =>
    intro h
    obtain ⟨h1, h2, h3⟩ := h a (List.mem_cons_self a rest)
    rw [cal_step, if_neg (by rw [h1]; exact Bool.false_ne_true),
      if_neg (by rw [h2]; simp [h3]),
      ih (fun x hx => h x (List.mem_cons_of_mem a hx))]

/-- C3: `clean_args` returns exactly the subsequence described by the
spec (standalone global flags removed, value-taking global flags removed
together with their following token, all else kept in order), and its
result is a sublist of the input, so the kept tokens are verbatim and in
their original relative order. -/
theorem C3_clean_args_contract (args : List String) :
    clean_args args = spec_clean args ∧ List.Sublist (clean_args args) args :=
  ⟨clean_eq_spec args, cal_sublist args false⟩

/-- C4: `clean_args` is idempotent, and its output contains no
recognized global flag name. -/
theorem C4_clean_args_idempotent (args : List String) :
    clean_args (clean_args args) = clean_args args
    ∧ ∀ g ∈ RECOGNIZED_FLAGS, g ∉ clean_args args := by
  constructor
  · exact cal_fixed _ (fun x hx => cal_mem args false x hx)
  · intro g hg hmem
    obtain ⟨h1, h2, h3⟩ := cal_mem args false g hmem
    fin_cases hg
    all_goals first
      | exact absurd h1 (by decide)
      | exact absurd h2 (by decide)
      | exact h3 rfl

/-- Witness for C4 on a concrete argument list containing a global flag. -/
theorem C4_witness :
    clean_args (clean_args ["--json", "open"]) = clean_args ["--json", "open"]
    ∧ "--json" ∉ clean_args ["--json", "open"] :=
  ⟨(C4_clean_args_idempotent ["--json", "open"]).1,
   (C4_clean_args_idempotent ["--json", "open"]).2 "--json" (by decide)⟩

/-! One-step reduction lemmas for `parse_loop`. -/

lemma pl_nil (f : Flags) (e : List String) : parse_loop [] f e = (f, e) := rfl

lemma pl_json (f : Flags) (e : List String) (rest : List String) :
    parse_loop ("--json" :: rest) f e = parse_loop rest { f with json := true } e := by
  cases rest <;> simp [parse_loop]

lemma pl_full (f : Flags) (e : List String) (rest : List String) :
    parse_loop ("--full" :: rest) f e = parse_loop rest { f with full := true } e := by
  cases rest <;> simp [parse_loop]

lemma pl_f (f : Flags) (e : List String) (rest : List String) :
    parse_loop ("-f" :: rest) f e = parse_loop rest { f with full := true } e := by
  cases rest <;> simp [parse_loop]

lemma pl_headed (f : Flags) (e : List String) (rest : List String) :
    parse_loop ("--headed" :: rest) f e = parse_loop rest { f with headed := true } e := by
  cases rest <;> simp [parse_loop]

lemma pl_debug (f : Flags) (e : List String) (rest : List String) :
    parse_loop ("--debug" :: rest) f e = parse_loop rest { f with debug := true } e := by
  cases rest <;> simp [parse_loop]

lemma pl_session_last (f : Flags) (e : List String) :
    parse_loop ["--session"] f e = (f, e) := by
  simp [parse_loop]

lemma pl_session_cons (f : Flags) (e : List String) (v : String) (rest : List String) :
    parse_loop ("--session" :: v :: rest) f e =
      parse_loop rest { f with session := v } e := by
  simp [parse_loop]

lemma pl_headers_last (f : Flags) (e : List String) :
    parse_loop ["--headers"] f e = (f, e) := by
  simp [parse_loop]

lemma pl_headers_cons (f : Flags) (e : List String) (v : String) (rest : List String) :
    parse_loop ("--headers" :: v :: rest) f e =
      parse_loop rest { f with headers := some v } e := by
  simp [parse_loop]

lemma pl_exec_last (f : Flags) (e : List String) :
    parse_loop ["--executable-path"] f e = (f, e) := by
  simp [parse_loop]

lemma pl_exec_cons (f : Flags) (e : List String) (v : String) (rest : List String) :
    parse_loop ("--executable-path" :: v :: rest) f e =
      parse_loop rest { f with executable_path := some v } e := by
  simp [parse_loop]

lemma pl_cdp_last (f : Flags) (e : List String) :
    parse_loop ["--cdp"] f e = (f, e) := by
  simp [parse_loop]

lemma pl_cdp_cons (f : Flags) (e : List String) (v : String) (rest : List String) :
    parse_loop ("--cdp" :: v :: rest) f e =
      parse_loop rest { f with cdp := some v } e := by
  simp [parse_loop]

lemma pl_sn_last (f : Flags) (e : List String) :
    parse_loop ["--session-name"] f e = (f, e) := by
  simp [parse_loop]

lemma pl_sn_cons (f : Flags) (e : List String) (v : String) (rest : List String) :
    parse_loop ("--session-name" :: v :: rest) f e =
      if is_valid_session_name v then
        parse_loop rest { f with session_name := some v } e
      else parse_loop rest f (e ++ [flags_session_name_error v]) := by
  simp [parse_loop]

lemma pl_other (a : String) (rest : List String) (f : Flags) (e : List String)
    (h1 : ¬a = "--json") (h2 : ¬a = "--full") (h3 : ¬a = "-f") (h4 : ¬a = "--headed")
    (h5 : ¬a = "--debug") (h6 : ¬a = "--session") (h7 : ¬a = "--headers")
    (h8 : ¬a = "--executable-path") (h9 : ¬a = "--cdp") (h10 : ¬a = "--session-name") :
    parse_loop (a :: rest) f e = parse_loop rest f e := by
  cases rest <;> simp [parse_loop, h1, h2, h3, h4, h5, h6, h7, h8, h9, h10]

/-! Global lemmas about `parse_loop`. -/

lemma parse_loop_accum (args : List String) (f : Flags) (e0 : List String) :
    ∀ e, parse_loop args f e =
      ((parse_loop args f []).1, e ++ (parse_loop args f []).2) := by
  induction args, f, e0 using parse_loop.induct with
  | case1 f e0 =>
    intro e
    rw [pl_nil, pl_nil]
    simp
  | case2 rest f e0 ih =>
    intro e
    rw [pl_json, pl_json]
    exact ih e
  | case3 a rest f e0 h1 h2 ih =>
    intro e
    rcases h2 with rfl | rfl
    · rw [pl_full, pl_full]; exact ih e
    · rw [pl_f, pl_f]; exact ih e
  | case4 rest f e0 h1 h2 ih =>
    intro e
    rw [pl_headed, pl_headed]
    exact ih e
  | case5 rest f e0 h1 h2 h3 ih =>
    intro e
    rw [pl_debug, pl_debug]
    exact ih e
  | case6 f e0 h1 h2 h3 h4 =>
    intro e
    rw [pl_session_last, pl_session_last]
    simp
  | case7 f e0 v rest2 h1 h2 h3 h4 ih =>
    intro e
    rw [pl_session_cons, pl_session_cons]
    exact ih e
  | case8 f e0 h1 h2 h3 h4 h5 =>
    intro e
    rw [pl_headers_last, pl_headers_last]
    simp
  | case9 f e0 v rest2 h1 h2 h3 h4 h5 ih =>
    intro e
    rw [pl_headers_cons, pl_headers_cons]
    exact ih e
  | case10 f e0 h1 h2 h3 h4 h5 h6 =>
    intro e
    rw [pl_exec_last, pl_exec_last]
    simp
  | case11 f e0 v rest2 h1 h2 h3 h4 h5 h6 ih =>
    intro e
    rw [pl_exec_cons, pl_exec_cons]
    exact ih e
  | case12 f e0 h1 h2 h3 h4 h5 h6 h7 =>
    intro e
    rw [pl_cdp_last, pl_cdp_last]
    simp
  | case13 f e0 v rest2 h1 h2 h3 h4 h5 h6 h7 ih =>
    intro e
    rw [pl_cdp_cons, pl_cdp_cons]
    exact ih e
  | case14 f e0 h1 h2 h3 h4 h5 h6 h7 h8 =>
    intro e
    rw [pl_sn_last, pl_sn_last]
    simp
  | case15 f e0 v rest2 hv h1 h2 h3 h4 h5 h6 h7 h8 ih =>
    intro e
    rw [pl_sn_cons, pl_sn_cons, if_pos hv, if_pos hv]
    exact ih e
  | case16 f e0 v rest2 hv h1 h2 h3 h4 h5 h6 h7 h8 ih =>
    intro e
    rw [pl_sn_cons, pl_sn_cons, if_neg hv, if_neg hv, List.nil_append,
      ih (e ++ [flags_session_name_error v]), ih [flags_session_name_error v]]
    simp [List.append_assoc]
  | case17 a rest f e0 h1 h2 h3 h4 h5 h6 h7 h8 h9 ih =>
    intro e
    have h2a := (not_or.mp h2).1
    have h2b := (not_or.mp h2).2
    rw [pl_other a rest _ _ h1 h2a h2b h3 h4 h5 h6 h7 h8 h9,
      pl_other a rest _ _ h1 h2a h2b h3 h4 h5 h6 h7 h8 h9]
    exact ih e

lemma parse_loop_sn_invariant (args : List String) (f : Flags) (e : List String)
    (hf : ∀ x, f.session_name = some x → is_valid_session_name x = true) :
    ∀ x, (parse_loop args f e).1.session_name = some x →
      is_valid_session_name x = true := by
  induction args, f, e using parse_loop.induct with
  | case1 f e => exact hf
  | case2 rest f e ih => rw [pl_json]; exact ih hf
  | case3 a rest f e h1 h2 ih =>
    rcases h2 with rfl | rfl
    · rw [pl_full]; exact ih hf
    · rw [pl_f]; exact ih hf
  | case4 rest f e h1 h2 ih => rw [pl_headed]; exact ih hf
  | case5 rest f e h1 h2 h3 ih => rw [pl_debug]; exact ih hf
  | case6 f e h1 h2 h3 h4 => rw [pl_session_last]; exact hf
  | case7 f e v rest2 h1 h2 h3 h4 ih => rw [pl_session_cons]; exact ih hf
  | case8 f e h1 h2 h3 h4 h5 => rw [pl_headers_last]; exact hf
  | case9 f e v rest2 h1 h2 h3 h4 h5 ih => rw [pl_headers_cons]; exact ih hf
  | case10 f e h1 h2 h3 h4 h5 h6 => rw [pl_exec_last]; exact hf
  | case11 f e v rest2 h1 h2 h3 h4 h5 h6 ih => rw [pl_exec_cons]; exact ih hf
  | case12 f e h1 h2 h3 h4 h5 h6 h7 => rw [pl_cdp_last]; exact hf
  | case13 f e v rest2 h1 h2 h3 h4 h5 h6 h7 ih => rw [pl_cdp_cons]; exact ih hf
  | case14 f e h1 h2 h3 h4 h5 h6 h7 h8 => rw [pl_sn_last]; exact hf
  | case15 f e v rest2 hv h1 h2 h3 h4 h5 h6 h7 h8 ih =>
    rw [pl_sn_cons, if_pos hv]
    refine ih ?_
    intro x hx
    injection hx with hx2
    rw [← hx2]
    exact hv
  | case16 f e v rest2 hv h1 h2 h3 h4 h5 h6 h7 h8 ih =>
    rw [pl_sn_cons, if_neg hv]
    exact ih hf
  | case17 a rest f e h1 h2 h3 h4 h5 h6 h7 h8 h9 ih =>
    rw [pl_other a rest _ _ h1 (not_or.mp h2).1 (not_or.mp h2).2 h3 h4 h5 h6 h7 h8 h9]
    exact ih hf

lemma parse_loop_no_flags : ∀ (args : List String) (f : Flags) (e : List String),
    (∀ a ∈ args, RECOGNIZED_FLAGS.contains a = false) →
    parse_loop args f e = (f, e) := by
  intro args
  induction args with
  | nil => intro f e h; rfl
  | cons a rest ih =>
    intro f e h
    have ha := h a (List.mem_cons_self a rest)
    simp only [RECOGNIZED_FLAGS, List.contains_cons, Bool.or_eq_false_iff,
      beq_eq_false_iff_ne, ne_eq, List.contains_nil] at ha
    obtain ⟨n1, n2, n3, n4, n5, n6, n7, n8, n9, n10, -⟩ := ha
    rw [pl_other a rest f e n1 n2 n3 n4 n5 n6 n7 n8 n9 n10]
    exact ih f e (fun x hx => h x (List.mem_cons_of_mem a hx))

/-! Step lemmas and the last-occurrence characterization used by C10. -/

lemma opt_none_or (x : Option String) : Option.or none x = x := rfl

lemma lfv_bool (b : String) (rest : List String)
    (hb : b = "--json" ∨ b = "--full" ∨ b = "-f" ∨ b = "--headed" ∨ b = "--debug")
    (g : String) : last_flag_value g (b :: rest) = last_flag_value g rest := by
  rcases hb with rfl | rfl | rfl | rfl | rfl <;> cases rest <;> simp [last_flag_value]

lemma lvsn_bool (b : String) (rest : List String)
    (hb : b = "--json" ∨ b = "--full" ∨ b = "-f" ∨ b = "--headed" ∨ b = "--debug") :
    last_valid_session_name (b :: rest) = last_valid_session_name rest := by
  rcases hb with rfl | rfl | rfl | rfl | rfl <;> cases rest <;> simp [last_valid_session_name]

lemma lfv_val_last (b : String)
    (hb : b = "--session" ∨ b = "--headers" ∨ b = "--executable-path" ∨
      b = "--cdp" ∨ b = "--session-name")
    (g : String) : last_flag_value g [b] = none := by
  rcases hb with rfl | rfl | rfl | rfl | rfl <;> simp [last_flag_value]

lemma lvsn_val_last (b : String)
    (hb : b = "--session" ∨ b = "--headers" ∨ b = "--executable-path" ∨
      b = "--cdp" ∨ b = "--session-name") :
    last_valid_session_name [b] = none := by
  rcases hb with rfl | rfl | rfl | rfl | rfl <;> simp [last_valid_session_name]

lemma lfv_val_cons (b : String)
    (hb : b = "--session" ∨ b = "--headers" ∨ b = "--executable-path" ∨
      b = "--cdp" ∨ b = "--session-name")
    (v : String) (rest2 : List String) (g : String) :
    last_flag_value g (b :: v :: rest2) =
      (last_flag_value g rest2).or (if b = g then some v else none) := by
  rcases hb with rfl | rfl | rfl | rfl | rfl <;> simp [last_flag_value]

lemma lvsn_val_cons (b : String)
    (hb : b = "--session" ∨ b = "--headers" ∨ b = "--executable-path" ∨
      b = "--cdp" ∨ b = "--session-name")
    (v : String) (rest2 : List String) :
    last_valid_session_name (b :: v :: rest2) =
      (last_valid_session_name rest2).or
        (if b = "--session-name" then
          (if is_valid_session_name v then some v else none)
        else none) := by
  rcases hb with rfl | rfl | rfl | rfl | rfl <;> simp [last_valid_session_name]

lemma lfv_other (a : String) (rest : List String)
    (hA : ¬(a = "--json" ∨ a = "--full" ∨ a = "-f" ∨ a = "--headed" ∨ a = "--debug"))
    (hB : ¬(a = "--session" ∨ a = "--headers" ∨ a = "--executable-path" ∨
      a = "--cdp" ∨ a = "--session-name"))
    (g : String) : last_flag_value g (a :: rest) = last_flag_value g rest := by
  cases rest <;> simp [last_flag_value, hA, hB]

lemma lvsn_other (a : String) (rest : List String)
    (hA : ¬(a = "--json" ∨ a = "--full" ∨ a = "-f" ∨ a = "--headed" ∨ a = "--debug"))
    (hB : ¬(a = "--session" ∨ a = "--headers" ∨ a = "--executable-path" ∨
      a = "--cdp" ∨ a = "--session-name"))  :
    last_valid_session_name (a :: rest) = last_valid_session_name rest := by
  cases rest <;> simp [last_valid_session_name, hA, hB]

lemma parse_loop_last_values (args : List String) (f : Flags) (e : List String) :
    (parse_loop args f e).1.session = (last_flag_value "--session" args).getD f.session
    ∧ (parse_loop args f e).1.headers = (last_flag_value "--headers" args).or f.headers
    ∧ (parse_loop args f e).1.executable_path =
        (last_flag_value "--executable-path" args).or f.executable_path
    ∧ (parse_loop args f e).1.cdp = (last_flag_value "--cdp" args).or f.cdp
    ∧ (parse_loop args f e).1.session_name =
        (last_valid_session_name args).or f.session_name := by
  induction args, f, e using parse_loop.induct with
  | case1 f e => exact ⟨rfl, rfl, rfl, rfl, rfl⟩
  | case2 rest f e ih =>
    simp only [pl_json, lfv_bool "--json" rest (Or.inl rfl),
      lvsn_bool "--json" rest (Or.inl rfl)]
    exact ih
  | case3 a rest f e h1 h2 ih =>
    rcases h2 with rfl | rfl
    · simp only [pl_full, lfv_bool "--full" rest (Or.inr (Or.inl rfl)),
        lvsn_bool "--full" rest (Or.inr (Or.inl rfl))]
      exact ih
    · simp only [pl_f, lfv_bool "-f" rest (Or.inr (Or.inr (Or.inl rfl))),
        lvsn_bool "-f" rest (Or.inr (Or.inr (Or.inl rfl)))]
      exact ih
  | case4 rest f e h1 h2 ih =>
    simp only [pl_headed, lfv_bool "--headed" rest (Or.inr (Or.inr (Or.inr (Or.inl rfl)))),
      lvsn_bool "--headed" rest (Or.inr (Or.inr (Or.inr (Or.inl rfl))))]
    exact ih
  | case5 rest f e h1 h2 h3 ih =>
    simp only [pl_debug, lfv_bool "--debug" rest (Or.inr (Or.inr (Or.inr (Or.inr rfl)))),
      lvsn_bool "--debug" rest (Or.inr (Or.inr (Or.inr (Or.inr rfl))))]
    exact ih
  | case6 f e h1 h2 h3 h4 => exact ⟨rfl, rfl, rfl, rfl, rfl⟩
  | case7 f e v rest2 h1 h2 h3 h4 ih =>
    obtain ⟨i1, i2, i3, i4, i5⟩ := ih
    refine ⟨?_, ?_, ?_, ?_, ?_⟩
    · rw [pl_session_cons, lfv_val_cons "--session" (Or.inl rfl) v rest2 "--session",
        if_pos rfl, i1]
      cases last_flag_value "--session" rest2 <;> rfl
    · rw [pl_session_cons, lfv_val_cons "--session" (Or.inl rfl) v rest2 "--headers",
        if_neg (by decide), Option.or_none, i2]
    · rw [pl_session_cons,
        lfv_val_cons "--session" (Or.inl rfl) v rest2 "--executable-path",
        if_neg (by decide), Option.or_none, i3]
    · rw [pl_session_cons, lfv_val_cons "--session" (Or.inl rfl) v rest2 "--cdp",
        if_neg (by decide), Option.or_none, i4]
    · rw [pl_session_cons, lvsn_val_cons "--session" (Or.inl rfl) v rest2,
        if_neg (by decide), Option.or_none, i5]
  | case8 f e h1 h2 h3 h4 h5 => exact ⟨rfl, rfl, rfl, rfl, rfl⟩
  | case9 f e v rest2 h1 h2 h3 h4 h5 ih =>
    obtain ⟨i1, i2, i3, i4, i5⟩ := ih
    refine ⟨?_, ?_, ?_, ?_, ?_⟩
    · rw [pl_headers_cons,
        lfv_val_cons "--headers" (Or.inr (Or.inl rfl)) v rest2 "--session",
        if_neg (by decide), Option.or_none, i1]
    · rw [pl_headers_cons,
        lfv_val_cons "--headers" (Or.inr (Or.inl rfl)) v rest2 "--headers",
        if_pos rfl, i2]
      cases last_flag_value "--headers" rest2 <;> rfl
    · rw [pl_headers_cons,
        lfv_val_cons "--headers" (Or.inr (Or.inl rfl)) v rest2 "--executable-path",
        if_neg (by decide), Option.or_none, i3]
    · rw [pl_headers_cons,
        lfv_val_cons "--headers" (Or.inr (Or.inl rfl)) v rest2 "--cdp",
        if_neg (by decide), Option.or_none, i4]
    · rw [pl_headers_cons, lvsn_val_cons "--headers" (Or.inr (Or.inl rfl)) v rest2,
        if_neg (by decide), Option.or_none, i5]
  | case10 f e h1 h2 h3 h4 h5 h6 => exact ⟨rfl, rfl, rfl, rfl, rfl⟩
  | case11 f e v rest2 h1 h2 h3 h4 h5 h6 ih =>
    obtain ⟨i1, i2, i3, i4, i5⟩ := ih
    refine ⟨?_, ?_, ?_, ?_, ?_⟩
    · rw [pl_exec_cons,
        lfv_val_cons "--executable-path" (Or.inr (Or.inr (Or.inl rfl))) v rest2 "--session",
        if_neg (by decide), Option.or_none, i1]
    · rw [pl_exec_cons,
        lfv_val_cons "--executable-path" (Or.inr (Or.inr (Or.inl rfl))) v rest2 "--headers",
        if_neg (by decide), Option.or_none, i2]
    · rw [pl_exec_cons,
        lfv_val_cons "--executable-path" (Or.inr (Or.inr (Or.inl rfl))) v rest2
          "--executable-path",
        if_pos rfl, i3]
      cases last_flag_value "--executable-path" rest2 <;> rfl
    · rw [pl_exec_cons,
        lfv_val_cons "--executable-path" (Or.inr (Or.inr (Or.inl rfl))) v rest2 "--cdp",
        if_neg (by decide), Option.or_none, i4]
    · rw [pl_exec_cons,
        lvsn_val_cons "--executable-path" (Or.inr (Or.inr (Or.inl rfl))) v rest2,
        if_neg (by decide), Option.or_none, i5]
  | case12 f e h1 h2 h3 h4 h5 h6 h7 => exact ⟨rfl, rfl, rfl, rfl, rfl⟩
  | case13 f e v rest2 h1 h2 h3 h4 h5 h6 h7 ih =>
    obtain ⟨i1, i2, i3, i4, i5⟩ := ih
    refine ⟨?_, ?_, ?_, ?_, ?_⟩
    · rw [pl_cdp_cons,
        lfv_val_cons "--cdp" (Or.inr (Or.inr (Or.inr (Or.inl rfl)))) v rest2 "--session",
        if_neg (by decide), Option.or_none, i1]
    · rw [pl_cdp_cons,
        lfv_val_cons "--cdp" (Or.inr (Or.inr (Or.inr (Or.inl rfl)))) v rest2 "--headers",
        if_neg (by decide), Option.or_none, i2]
    · rw [pl_cdp_cons,
        lfv_val_cons "--cdp" (Or.inr (Or.inr (Or.inr (Or.inl rfl)))) v rest2
          "--executable-path",
        if_neg (by decide), Option.or_none, i3]
    · rw [pl_cdp_cons,
        lfv_val_cons "--cdp" (Or.inr (Or.inr (Or.inr (Or.inl rfl)))) v rest2 "--cdp",
        if_pos rfl, i4]
      cases last_flag_value "--cdp" rest2 <;> rfl
    · rw [pl_cdp_cons,
        lvsn_val_cons "--cdp" (Or.inr (Or.inr (Or.inr (Or.inl rfl)))) v rest2,
        if_neg (by decide), Option.or_none, i5]
  | case14 f e h1 h2 h3 h4 h5 h6 h7 h8 => exact ⟨rfl, rfl, rfl, rfl, rfl⟩
  | case15 f e v rest2 hv h1 h2 h3 h4 h5 h6 h7 h8 ih =>
    obtain ⟨i1, i2, i3, i4, i5⟩ := ih
    refine ⟨?_, ?_, ?_, ?_, ?_⟩
    · rw [pl_sn_cons, if_pos hv,
        lfv_val_cons "--session-name" (Or.inr (Or.inr (Or.inr (Or.inr rfl)))) v rest2
          "--session",
        if_neg (by decide), Option.or_none, i1]
    · rw [pl_sn_cons, if_pos hv,
        lfv_val_cons "--session-name" (Or.inr (Or.inr (Or.inr (Or.inr rfl)))) v rest2
          "--headers",
        if_neg (by decide), Option.or_none, i2]
    · rw [pl_sn_cons, if_pos hv,
        lfv_val_cons "--session-name" (Or.inr (Or.inr (Or.inr (Or.inr rfl)))) v rest2
          "--executable-path",
        if_neg (by decide), Option.or_none, i3]
    · rw [pl_sn_cons, if_pos hv,
        lfv_val_cons "--session-name" (Or.inr (Or.inr (Or.inr (Or.inr rfl)))) v rest2
          "--cdp",
        if_neg (by decide), Option.or_none, i4]
    · rw [pl_sn_cons, if_pos hv,
        lvsn_val_cons "--session-name" (Or.inr (Or.inr (Or.inr (Or.inr rfl)))) v rest2,
        if_pos rfl, if_pos hv, i5]
      cases last_valid_session_name rest2 <;> rfl
  | case16 f e v rest2 hv h1 h2 h3 h4 h5 h6 h7 h8 ih =>
    obtain ⟨i1, i2, i3, i4, i5⟩ := ih
    refine ⟨?_, ?_, ?_, ?_, ?_⟩
    · rw [pl_sn_cons, if_neg hv,
        lfv_val_cons "--session-name" (Or.inr (Or.inr (Or.inr (Or.inr rfl)))) v rest2
          "--session",
        if_neg (by decide), Option.or_none, i1]
    · rw [pl_sn_cons, if_neg hv,
        lfv_val_cons "--session-name" (Or.inr (Or.inr (Or.inr (Or.inr rfl)))) v rest2
          "--headers",
        if_neg (by decide), Option.or_none, i2]
    · rw [pl_sn_cons, if_neg hv,
        lfv_val_cons "--session-name" (Or.inr (Or.inr (Or.inr (Or.inr rfl)))) v rest2
          "--executable-path",
        if_neg (by decide), Option.or_none, i3]
    · rw [pl_sn_cons, if_neg hv,
        lfv_val_cons "--session-name" (Or.inr (Or.inr (Or.inr (Or.inr rfl)))) v rest2
          "--cdp",
        if_neg (by decide), Option.or_none, i4]
    · rw [pl_sn_cons, if_neg hv,
        lvsn_val_cons "--session-name" (Or.inr (Or.inr (Or.inr (Or.inr rfl)))) v rest2,
        if_pos rfl, if_neg hv, Option.or_none, i5]
  | case17 a rest f e h1 h2 h3 h4 h5 h6 h7 h8 h9 ih =>
    have hA : ¬(a = "--json" ∨ a = "--full" ∨ a = "-f" ∨ a = "--headed" ∨ a = "--debug") := by
      rintro (rfl | rfl | rfl | rfl | rfl)
      exacts [h1 rfl, h2 (Or.inl rfl), h2 (Or.inr rfl), h3 rfl, h4 rfl]
    have hB : ¬(a = "--session" ∨ a = "--headers" ∨ a = "--executable-path" ∨
        a = "--cdp" ∨ a = "--session-name") := by
      rintro (rfl | rfl | rfl | rfl | rfl)
      exacts [h5 rfl, h6 rfl, h7 rfl, h8 rfl, h9 rfl]
    rw [pl_other a rest f e h1 (not_or.mp h2).1 (not_or.mp h2).2 h3 h4 h5 h6 h7 h8 h9]
    simp only [lfv_other a rest hA hB, lvsn_other a rest hA hB]
    exact ih

/-! Claim theorems about `parse_flags`. -/

/-- C2: `sessionName` is `Some x` only if `is_valid_session_name x`
holds; an invalid candidate, whether from the environment variable or
from a `--session-name` flag value, is recorded as an error and leaves
the field as it was instead of being assigned. -/
theorem C2_session_name_invariant (env : Env) (args : List String) :
    (∀ x, (parse_flags env args).flags.session_name = some x →
      is_valid_session_name x = true)
    ∧ (∀ (f : Flags) (e : List String) (v : String) (rest : List String),
        is_valid_session_name v = false →
        parse_loop ("--session-name" :: v :: rest) f e =
          parse_loop rest f (e ++ [flags_session_name_error v]))
    ∧ (∀ n, env.agent_browser_session_name = some n →
        is_valid_session_name n = false →
        (initial_flags env).session_name = none ∧
          env_errors env = [env_session_name_error n]) := by
  refine ⟨?_, ?_, ?_⟩
  · have hf : ∀ x, (initial_flags env).session_name = some x →
        is_valid_session_name x = true := by
      intro x hx
      have hx2 : validated_env_session_name env = some x := hx
      unfold validated_env_session_name at hx2
      cases hn : env.agent_browser_session_name with
      | none => simp only [hn] at hx2; exact Option.noConfusion hx2
      | some n =>
        simp only [hn] at hx2
        by_cases hv : is_valid_session_name n = true
        · rw [if_pos hv] at hx2
          injection hx2 with hx3
          rw [← hx3]
          exact hv
        · rw [if_neg hv] at hx2; cases hx2
    exact parse_loop_sn_invariant args (initial_flags env) (env_errors env) hf
  · intro f e v rest hv
    rw [pl_sn_cons, if_neg (by rw [hv]; exact Bool.false_ne_true)]
  · intro n hn hinv
    constructor
    · show validated_env_session_name env = none
      unfold validated_env_session_name
      simp only [hn]
      rw [if_neg (by rw [hinv]; exact Bool.false_ne_true)]
    · unfold env_errors
      simp only [hn]
      rw [if_neg (by rw [hinv]; exact Bool.false_ne_true)]

/-- Witness for C2: a valid environment value is kept (and is valid),
and an invalid flag value is turned into an error without assignment. -/
theorem C2_witness :
    is_valid_session_name "abc" = true ∧
    parse_loop ["--session-name", "x y"] (initial_flags ⟨none, none, none⟩) [] =
      parse_loop [] (initial_flags ⟨none, none, none⟩)
        ([] ++ [flags_session_name_error "x y"]) :=
  ⟨(C2_session_name_invariant ⟨none, none, some "abc"⟩ []).1 "abc" (by decide),
   (C2_session_name_invariant ⟨none, none, none⟩ []).2.1
     (initial_flags ⟨none, none, none⟩) [] "x y" [] (by decide)⟩

/-- C5: a `--session-name` flag with a following token always consumes
that token; a valid token is assigned, an invalid one appends exactly
`session_name_error` of the token, and parsing continues on the
remaining arguments either way. -/
theorem C5_session_name_consumes (f : Flags) (e : List String) (v : String)
    (rest : List String) :
    parse_loop ("--session-name" :: v :: rest) f e =
      if is_valid_session_name v then
        parse_loop rest { f with session_name := some v } e
      else parse_loop rest f (e ++ [session_name_error v]) := by
  rw [pl_sn_cons]
  rfl

/-- C6: a value-taking global flag as the very last argument causes no
assignment and no error in the parse loop, and is itself dropped by the
cleaning loop; both functions are total, so no out-of-bounds access can
occur. -/
theorem C6_value_flag_last (g : String) (hg : g ∈ GLOBAL_FLAGS_WITH_VALUE)
    (f : Flags) (e : List String) :
    parse_loop [g] f e = (f, e) ∧ clean_args_loop [g] false = [] := by
  fin_cases hg
  · exact ⟨pl_session_last f e, by decide⟩
  · exact ⟨pl_headers_last f e, by decide⟩
  · exact ⟨pl_exec_last f e, by decide⟩
  · exact ⟨pl_cdp_last f e, by decide⟩
  · exact ⟨pl_sn_last f e, by decide⟩

/-- Witness for C6 at the `--cdp` flag. -/
theorem C6_witness :
    "--cdp" ∈ GLOBAL_FLAGS_WITH_VALUE ∧
    (parse_loop ["--cdp"] (initial_flags ⟨none, none, none⟩) [] =
        (initial_flags ⟨none, none, none⟩, []) ∧
      clean_args_loop ["--cdp"] false = []) :=
  ⟨by decide, C6_value_flag_last "--cdp" (by decide) (initial_flags ⟨none, none, none⟩) []⟩

/-- C7: the error accumulator only grows by appending at the end, so
environment-derived errors precede all flag-derived errors and the
errors of `parse_flags` decompose as the environment errors followed by
the scan errors; the flags produced are independent of the error
accumulator, and the scan never aborts early. -/
theorem C7_error_order (env : Env) (args : List String) (f : Flags) (e : List String) :
    (parse_loop args f e).1 = (parse_loop args f []).1
    ∧ (parse_loop args f e).2 = e ++ (parse_loop args f []).2
    ∧ (parse_flags env args).errors =
        env_errors env ++ (parse_loop args (initial_flags env) []).2
    ∧ (parse_flags env args).flags = (parse_loop args (initial_flags env) []).1 := by
  refine ⟨?_, ?_, ?_, ?_⟩
  · rw [parse_loop_accum args f [] e]
  · rw [parse_loop_accum args f [] e]
  · show (parse_loop args (initial_flags env) (env_errors env)).2 = _
    rw [parse_loop_accum args (initial_flags env) [] (env_errors env)]
  · show (parse_loop args (initial_flags env) (env_errors env)).1 = _
    rw [parse_loop_accum args (initial_flags env) [] (env_errors env)]

/-- C8: an argument list without any recognized flag leaves every field
at its environment-seeded default. -/
theorem C8_defaults (env : Env) (args : List String)
    (h : ∀ a ∈ args, RECOGNIZED_FLAGS.contains a = false) :
    (parse_flags env args).flags.json = false
    ∧ (parse_flags env args).flags.full = false
    ∧ (parse_flags env args).flags.headed = false
    ∧ (parse_flags env args).flags.debug = false
    ∧ (parse_flags env args).flags.headers = none
    ∧ (parse_flags env args).flags.cdp = none
    ∧ (parse_flags env args).flags.session = env.agent_browser_session.getD "default"
    ∧ (parse_flags env args).flags.executable_path = env.agent_browser_executable_path
    ∧ (parse_flags env args).flags.session_name = validated_env_session_name env
    ∧ (∀ n, env.agent_browser_session_name = some n →
        (is_valid_session_name n = true →
          (parse_flags env args).flags.session_name = some n)
        ∧ (is_valid_session_name n = false →
          (parse_flags env args).flags.session_name = none)) := by
  have hp : (parse_flags env args).flags = initial_flags env := by
    show (parse_loop args (initial_flags env) (env_errors env)).1 = _
    rw [parse_loop_no_flags args _ _ h]
  rw [hp]
  refine ⟨rfl, rfl, rfl, rfl, rfl, rfl, rfl, rfl, rfl, ?_⟩
  intro n hn
  constructor
  · intro hv
    show validated_env_session_name env = some n
    unfold validated_env_session_name
    simp only [hn]
    rw [if_pos hv]
  · intro hv
    show validated_env_session_name env = none
    unfold validated_env_session_name
    simp only [hn]
    rw [if_neg (by rw [hv]; exact Bool.false_ne_true)]

/-- Witness for C8 on a plain subcommand argument list. -/
theorem C8_witness :
    (parse_flags ⟨none, none, none⟩ ["open", "example.com"]).flags.json = false :=
  (C8_defaults ⟨none, none, none⟩ ["open", "example.com"] (by decide)).1

/-- C9: a recognized flag name directly after `--session-name` is
swallowed as the candidate value; `"--json"` passes the character-class
check, so it is assigned as the session name while the `json` field
stays false, and `clean_args` removes both tokens. -/
theorem C9_flag_as_value (env : Env) :
    (parse_flags env ["--session-name", "--json"]).flags.session_name = some "--json"
    ∧ (parse_flags env ["--session-name", "--json"]).flags.json = false
    ∧ is_valid_session_name "--json" = true
    ∧ clean_args ["--session-name", "--json"] = [] := by
  have hv : is_valid_session_name "--json" = true := by decide
  have h1 : (parse_flags env ["--session-name", "--json"]).flags =
      { initial_flags env with session_name := some "--json" } := by
    show (parse_loop ["--session-name", "--json"] (initial_flags env)
        (env_errors env)).1 = _
    rw [pl_sn_cons, if_pos hv, pl_nil]
  refine ⟨?_, ?_, hv, by decide⟩
  · rw [h1]
  · rw [h1]
    rfl

/-- C10: for every environment and every argument list, each
value-taking flag field of the parse result holds the value token of the
last occurrence of that flag reached by the scan, falling back to its
environment-seeded default when there is none; in particular a valid
`--session-name` flag value overrides the environment seed and a
`--session` value overrides the `AGENT_BROWSER_SESSION` default. -/
theorem C10_last_occurrence_wins (env : Env) (args : List String) :
    ((parse_flags env args).flags.session =
        (last_flag_value "--session" args).getD (env.agent_browser_session.getD "default"))
    ∧ ((parse_flags env args).flags.headers = last_flag_value "--headers" args)
    ∧ ((parse_flags env args).flags.executable_path =
        (last_flag_value "--executable-path" args).or env.agent_browser_executable_path)
    ∧ ((parse_flags env args).flags.cdp = last_flag_value "--cdp" args)
    ∧ ((parse_flags env args).flags.session_name =
        (last_valid_session_name args).or (validated_env_session_name env))
    ∧ (∀ v, last_flag_value "--session" args = some v →
        (parse_flags env args).flags.session = v)
    ∧ (∀ v, last_valid_session_name args = some v →
        (parse_flags env args).flags.session_name = some v) := by
  have h := parse_loop_last_values args (initial_flags env) (env_errors env)
  refine ⟨h.1, h.2.1.trans Option.or_none, h.2.2.1, h.2.2.2.1.trans Option.or_none,
    h.2.2.2.2, ?_, ?_⟩
  · intro v hv
    have h1 := h.1
    rw [hv] at h1
    exact h1
  · intro v hv
    have h5 := h.2.2.2.2
    rw [hv] at h5
    exact h5

/-- Witness for C10 at a doubled `--session` flag whose values are a URL
and a path, both outside the session-name character class. -/
theorem C10_witness :
    last_flag_value "--session"
      ["--session", "http://a:1", "--session", "/tmp/x"] = some "/tmp/x"
    ∧ (parse_flags ⟨none, none, none⟩
        ["--session", "http://a:1", "--session", "/tmp/x"]).flags.session = "/tmp/x" :=
  ⟨by decide,
   (C10_last_occurrence_wins ⟨none, none, none⟩
      ["--session", "http://a:1", "--session", "/tmp/x"]).2.2.2.2.2.1 "/tmp/x" (by decide)⟩

end AgentBrowser
